import Mathlib

/-!
Verification of the metadata-merge and file-diff orchestration core of the
iTurtle-Smart-Fetcher repository (package `internal/downloader`).

The Go source is shallowly embedded as follows:

* Go strings are Lean `String`s; where the code iterates over the bytes of a
  filename (`extractPlaylistIndex`) we work on the underlying `List Char`.
  For the characters the scanner inspects (space and dash, both single-byte
  ASCII) byte positions and rune positions coincide in valid UTF-8, so the
  character-level model is faithful to the byte-level loop.
* Go `int` is modelled as `Int`; `fmt.Sscanf("%d")` performs the 64-bit
  range check of `strconv.ParseInt`, which is modelled explicitly.
* `map[string]struct{}` file sets are duplicate-free `List String`s (the
  key set in some iteration order); Go map iteration order is unspecified,
  and the code sorts after filtering, so the result of `diffFiles` depends
  only on the key sets.  `sort.Strings` compares byte-wise, which on valid
  UTF-8 coincides with the code-point lexicographic order `lexLe` used here;
  any correct sort of a duplicate-free list is the unique sorted
  permutation, so insertion sort is a faithful model of its output.
* The external collaborators (yt-dlp, ffmpeg, os.Stat, HTTP) are oracles
  passed as function parameters; `Download` is modelled as a pure function
  of those oracles plus the before/after directory snapshots, returning the
  Go `([]string, error)` pair together with the list of tagger invocations.
-/

namespace ITurtle

/-! ## Character helpers (Go `unicode.IsSpace` on Latin-1, `fmt` digit scan) -/

/-- Whitespace recognised by Go's `fmt` scanner / `strings.TrimSpace`
(Latin-1 range of `unicode.IsSpace`). -/
def isGoSpace (c : Char) : Bool :=
  c = ' ' || c = '\t' || c = '\n' || c = '\x0b' || c = '\x0c' || c = '\r' ||
  c = '\x85' || c = '\xa0'

/-- Decimal value of a digit string (most significant first). -/
def digitsToNat (ds : List Char) : Nat :=
  ds.foldl (fun a c => 10 * a + (c.toNat - 48)) 0

/-- Model of `fmt.Sscanf(numStr, "%d", &num)` scanning into a 64-bit `int`:
skip leading whitespace, accept an optional sign, read at least one decimal
digit (trailing non-digits are ignored by `Sscanf`), and fail on a value
outside the `int64` range (as `strconv.ParseInt(tok, 10, 64)` does).
`none` is the error case. -/
def sscanfInt (s : List Char) : Option Int :=
  match s.dropWhile isGoSpace with
  | [] => none
  | c :: rest =>
    let s2 := if c = '-' ∨ c = '+' then rest else c :: rest
    let ds := s2.takeWhile Char.isDigit
    if ds = [] then none
    else if c = '-' then
      if digitsToNat ds ≤ 2 ^ 63 then some (-(digitsToNat ds : Int)) else none
    else
      if digitsToNat ds < 2 ^ 63 then some ((digitsToNat ds : Int)) else none

/-- Whether the bytes after a space are `'-'` then `' '` (with the second
space inside the string, i.e. the Go condition `i+2 < len(base)`). -/
def isSepTail : List Char → Bool
  | a :: b :: _ => a = '-' && b = ' '
  | _ => false

/-- The scanning loop of `extractPlaylistIndex` (downloader.go): walk the
base name; at the first position `i > 0` holding `' '` followed by `'-'`
and `' '`, parse the text before `i` with `Sscanf "%d"`; on parse success
return the number, on parse failure stop and return 0; if no such position
exists return 0.  `pre` accumulates the characters before the current
position. -/
def scanSep : List Char → List Char → Int
  | _, [] => 0
  | pre, c :: rs =>
    if c = ' ' ∧ pre ≠ [] ∧ isSepTail rs = true then
      match sscanfInt pre with
      | some n => n
      | none => 0
    else scanSep (pre ++ [c]) rs

/-- Model of Go `filepath.Base` on Unix: empty path gives ".", trailing
slashes are stripped, all-slash paths give "/", otherwise the part after
the last slash. -/
def basename (p : List Char) : List Char :=
  if p = [] then ['.']
  else
    let q := (p.reverse.dropWhile (· = '/')).reverse
    if q = [] then ['/']
    else (q.reverse.takeWhile (· ≠ '/')).reverse

/-- `extractPlaylistIndex` from downloader.go, on the character list of the
filename. -/
def extractPlaylistIndex (filename : List Char) : Int :=
  scanSep [] (basename filename)

/-- `extractPlaylistIndex` on a `String` filename. -/
def extractPlaylistIndexS (s : String) : Int :=
  extractPlaylistIndex s.data

/-! ## Data model (metadata.go) -/

/-- `Metadata` from metadata.go: tags to embed into downloaded audio files. -/
structure Metadata where
  Title : String
  Artist : String
  Album : String
  AlbumArtist : String
  Composer : String
  Year : String
  Genre : String
  Track : String
  Comment : String
deriving DecidableEq

/-- `TrackMetadata` from metadata.go: per-track metadata. -/
structure TrackMetadata where
  Position : Int
  Title : String
  Duration : String
  Artist : String
  Composer : String
  ISRC : String
  DiscNumber : Int
  TotalDiscs : Int
  Comment : String
deriving DecidableEq

/-- `AlbumMetadata` from metadata.go: album-level metadata. -/
structure AlbumMetadata where
  Title : String
  Artist : String
  AlbumArtist : String
  Year : String
  Genre : String
  Label : String
  CatalogNum : String
  Country : String
  TotalTracks : Int
  CoverURL : String
  CoverPath : String
  Comment : String
deriving DecidableEq

/-- `PlaylistMetadata` from metadata.go. -/
structure PlaylistMetadata where
  AlbumInfo : AlbumMetadata
  Tracks : List TrackMetadata
deriving DecidableEq

/-- `Config` from metadata.go (the `Runner` paths are irrelevant strings). -/
structure Config where
  URL : String
  OutputDir : String
  Cover : String
  AudioFormat : String
  YtDLPPath : String
  FFmpegPath : String
  Metadata : Metadata
  PlaylistMetadata : Option PlaylistMetadata
deriving DecidableEq

/-- The zero value of `Metadata` (all fields empty), as produced by Go for
an uninitialised struct. -/
def emptyMetadata : Metadata :=
  ⟨"", "", "", "", "", "", "", "", ""⟩

/-- The zero value of `TrackMetadata`. -/
def emptyTrackMetadata : TrackMetadata :=
  ⟨0, "", "", "", "", "", 0, 0, ""⟩

/-- The zero value of `AlbumMetadata`. -/
def emptyAlbumMetadata : AlbumMetadata :=
  ⟨"", "", "", "", "", "", "", "", 0, "", "", ""⟩

/-- `formatTrackNumber` from metadata.go. -/
def formatTrackNumber (track total : Int) : String :=
  if total > 0 then toString track ++ "/" ++ toString total
  else toString track

/-- `MergeTrackMetadata` from metadata.go, translated statement by
statement. -/
def MergeTrackMetadata (album : AlbumMetadata) (track : TrackMetadata)
    (position : Int) : Metadata :=
  let meta : Metadata :=
    { Title := "", Artist := "", Album := album.Title,
      AlbumArtist := album.AlbumArtist, Composer := "", Year := album.Year,
      Genre := album.Genre, Track := "", Comment := album.Comment }
  let meta := if meta.AlbumArtist = "" then
    { meta with AlbumArtist := album.Artist } else meta
  let meta := if track.Title ≠ "" then { meta with Title := track.Title } else meta
  let meta := if track.Artist ≠ "" then { meta with Artist := track.Artist }
    else { meta with Artist := album.Artist }
  let meta := if track.Composer ≠ "" then
    { meta with Composer := track.Composer } else meta
  let meta := if track.Comment ≠ "" then
    { meta with Comment := track.Comment } else meta
  let trackNum := if track.Position > 0 then track.Position else position
  if album.TotalTracks > 0 then
    { meta with Track := formatTrackNumber trackNum album.TotalTracks }
  else if trackNum > 0 then
    { meta with Track := formatTrackNumber trackNum 0 }
  else meta

/-! ## Track metadata resolution (downloader.go `getTrackMetadata`) -/

/-- The `trackIndex` local of `getTrackMetadata`: the playlist index from
the filename, falling back to the 1-based file index when the extraction
result is not positive. -/
def resolvedTrackIndex (filename : String) (fileIndex : Nat) : Int :=
  let e := extractPlaylistIndexS filename
  if e ≤ 0 then (fileIndex : Int) + 1 else e

/-- The `trackMeta` local of `getTrackMetadata`: `pm.Tracks[trackIndex-1]`
when `0 < trackIndex ≤ len(pm.Tracks)`, else `pm.Tracks[fileIndex]` when
`fileIndex < len(pm.Tracks)`, else the zero value. -/
def resolvedTrack (pm : PlaylistMetadata) (filename : String)
    (fileIndex : Nat) : TrackMetadata :=
  let trackIndex := resolvedTrackIndex filename fileIndex
  if trackIndex > 0 ∧ trackIndex ≤ (pm.Tracks.length : Int) then
    pm.Tracks.getD (trackIndex - 1).toNat emptyTrackMetadata
  else if (pm.Tracks.length : Int) > (fileIndex : Int) then
    pm.Tracks.getD fileIndex emptyTrackMetadata
  else emptyTrackMetadata

/-- `getTrackMetadata` from downloader.go. -/
def getTrackMetadata (pm : PlaylistMetadata) (filename : String)
    (fileIndex : Nat) : Metadata :=
  MergeTrackMetadata pm.AlbumInfo (resolvedTrack pm filename fileIndex)
    (resolvedTrackIndex filename fileIndex)

/-- The per-file metadata choice in `Download` (lines 526-529): the
caller-supplied `cfg.Metadata`, replaced by `getTrackMetadata` when
playlist metadata is present. -/
def selectFileMetadata (cfg : Config) (file : String) (i : Nat) : Metadata :=
  match cfg.PlaylistMetadata with
  | some pm => getTrackMetadata pm file i
  | none => cfg.Metadata

/-! ## Directory diff (downloader.go `diffFiles`) -/

/-- Lexicographic (code-point-wise, hence byte-wise on valid UTF-8) string
comparison, the order realised by Go's `sort.Strings`. -/
def lexLe : List Char → List Char → Bool
  | [], _ => true
  | _ :: _, [] => false
  | a :: as, b :: bs =>
    if a < b then true
    else if a = b then lexLe as bs
    else false

/-- The `≤` relation of `sort.Strings` as a proposition. -/
def strLeR (a b : String) : Prop :=
  lexLe a.data b.data = true

instance : DecidableRel strLeR :=
  fun a b => instDecidableEqBool (lexLe a.data b.data) true

/-- `diffFiles` from downloader.go: keep the paths of `after` that are not
keys of `before`, then sort.  `before` and `after` stand for the key sets
of the two snapshot maps, listed in an arbitrary iteration order. -/
def diffFiles (before after : List String) : List String :=
  List.insertionSort strLeR (after.filter fun p => !(before.contains p))

/-! ## Cover resolution and the Download orchestrator (downloader.go) -/

/-- Go `strings.TrimSpace`. -/
def trimSpace (s : String) : String :=
  ⟨((s.data.dropWhile isGoSpace).reverse.dropWhile isGoSpace).reverse⟩

/-- `prepareCover` from downloader.go, with the external collaborators as
oracles: `statExists` is whether `os.Stat` succeeds, `isURLO` is `isURL`
(a thin wrapper over `net/url.Parse`, out of the modelled core), and
`httpFetch cover` is `some tmpName` when the HTTP download of `cover`
succeeds into a temporary file and `none` when any step of it fails.
The `String` error value stands for the Go error. -/
def prepareCover (statExists isURLO : String → Bool)
    (httpFetch : String → Option String) (cover : String) :
    Except String String :=
  if trimSpace cover = "" then .ok ""
  else if ¬ isURLO cover then
    if statExists cover then .ok cover else .error ("cover file: " ++ cover)
  else
    match httpFetch cover with
    | some tmp => .ok tmp
    | none => .error ("download cover: " ++ cover)

/-- The cover path `Download` continues with: the `prepareCover` result,
or the empty string when `prepareCover` failed (the failure is only logged
as a warning, lines 499-503). -/
def resolveCoverPath (statExists isURLO : String → Bool)
    (httpFetch : String → Option String) (cover : String) : String :=
  match prepareCover statExists isURLO httpFetch cover with
  | .ok p => p
  | .error _ => ""

/-- The cover source precedence of `Download` (lines 490-497):
`cfg.Cover`, overridden by the playlist album `CoverURL` when non-empty,
in turn overridden by the playlist album `CoverPath` when non-empty. -/
def coverSource (cfg : Config) : String :=
  let s := cfg.Cover
  let s := match cfg.PlaylistMetadata with
    | some pm => if pm.AlbumInfo.CoverURL ≠ "" then pm.AlbumInfo.CoverURL else s
    | none => s
  match cfg.PlaylistMetadata with
  | some pm => if pm.AlbumInfo.CoverPath ≠ "" then pm.AlbumInfo.CoverPath else s
  | none => s

/-- The `hasMetadata` flag of `Download` (lines 505-511). -/
def hasMetadataFlag (cfg : Config) (coverPath : String) : Bool :=
  cfg.Metadata.Title != "" || cfg.Metadata.Artist != "" ||
  cfg.Metadata.Album != "" || cfg.Metadata.AlbumArtist != "" ||
  cfg.Metadata.Composer != "" || cfg.Metadata.Year != "" ||
  cfg.Metadata.Genre != "" || cfg.Metadata.Track != "" ||
  cfg.Metadata.Comment != "" || coverPath != "" ||
  cfg.PlaylistMetadata.isSome

/-- The tagging loop of `Download` (lines 522-536): each file of the
diffed set, in order, with its 0-based index `i`, is tagged via
`applyMetadata`; the first failing invocation aborts the loop.  `tag f
cover meta` is the oracle for `applyMetadata` (ffmpeg subprocess plus the
rename): `none` is success, `some e` the Go error.  `acc` accumulates the
invocations made so far; the pair's second component is the loop's error
outcome. -/
def tagEach (tag : String → String → Metadata → Option String)
    (cover : String) (cfg : Config) :
    List String → Nat → List (String × Metadata) →
    List (String × Metadata) × Option String
  | [], _, acc => (acc, none)
  | f :: fs, i, acc =>
    let meta := selectFileMetadata cfg f i
    match tag f cover meta with
    | some e => (acc ++ [(f, meta)], some e)
    | none => tagEach tag cover cfg fs (i + 1) (acc ++ [(f, meta)])

/-- The observable outcome of one `Download` call: the returned
`([]string, error)` pair, the tagger invocations made (relative path and
merged metadata of each), and the resolved cover path. -/
structure DownloadOutcome where
  files : List String
  error : Option String
  tagCalls : List (String × Metadata)
  coverPath : String
deriving DecidableEq

/-- `Download` from downloader.go as a function of its oracles: `tag` is
the `applyMetadata` collaborator, `statExists`/`isURLO`/`httpFetch` the
cover collaborators, `ytErr` the outcome of the yt-dlp subprocess (`none`
= exit 0), and `before`/`after` the two directory snapshots (key sets of
`snapshotFiles`, whose filesystem walk is outside the modelled core).
Directory creation, path defaulting and progress printing have no
observable effect on the outcome and are omitted. -/
def Download (tag : String → String → Metadata → Option String)
    (statExists isURLO : String → Bool) (httpFetch : String → Option String)
    (ytErr : Option String) (before after : List String) (cfg : Config) :
    DownloadOutcome :=
  if trimSpace cfg.URL = "" then ⟨[], some "url is required", [], ""⟩
  else
    match ytErr with
    | some e => ⟨[], some e, [], ""⟩
    | none =>
      let newFiles := diffFiles before after
      if newFiles = [] then
        ⟨[], some "no new audio files found after download", [], ""⟩
      else
        let coverPath :=
          resolveCoverPath statExists isURLO httpFetch (coverSource cfg)
        if hasMetadataFlag cfg coverPath then
          let r := tagEach tag coverPath cfg newFiles 0 []
          ⟨newFiles, r.2, r.1, coverPath⟩
        else ⟨newFiles, none, [], coverPath⟩

/-! ## The track-selection rule exactly as claim C1 words it -/

/-- Claim C1's wording of the per-file track resolution, to be compared
with `getTrackMetadata`: derive `trackIndex` from the filename, fall back
to `i+1` when extraction yields zero (and, per the wording, only then),
select the record at `trackIndex-1` when `1 ≤ trackIndex ≤ len`, else at
`i` when `i < len`, else the empty record, and merge with `trackIndex` as
the fallback position. -/
def claimC1TrackMetadata (pm : PlaylistMetadata) (filename : String)
    (i : Nat) : Metadata :=
  let e := extractPlaylistIndexS filename
  let trackIndex : Int := if e = 0 then (i : Int) + 1 else e
  let t : TrackMetadata :=
    if 1 ≤ trackIndex ∧ trackIndex ≤ (pm.Tracks.length : Int) then
      pm.Tracks.getD (trackIndex - 1).toNat emptyTrackMetadata
    else if (i : Int) < (pm.Tracks.length : Int) then
      pm.Tracks.getD i emptyTrackMetadata
    else emptyTrackMetadata
  MergeTrackMetadata pm.AlbumInfo t trackIndex

/-! ## Concrete fixtures for counterexamples and witnesses -/

/-- Two-track playlist, mirroring `TestDownloadWithPlaylistMetadata`. -/
def pmTwoTracks : PlaylistMetadata :=
  { AlbumInfo := { emptyAlbumMetadata with Title := "Test Album", Artist := "Test Artist", Year := "2024", TotalTracks := 2 },
    Tracks := [{ emptyTrackMetadata with Position := 1, Title := "First Track" },
               { emptyTrackMetadata with Position := 2, Title := "Second Track" }] }

/-- A playlist whose single track record is the zero value. -/
def pmOneEmptyTrack : PlaylistMetadata :=
  { AlbumInfo := emptyAlbumMetadata, Tracks := [emptyTrackMetadata] }

/-- A config whose caller-supplied metadata has a title, together with
playlist metadata whose first track has an empty title. -/
def cfgCallerTitle : Config :=
  { URL := "https://example.com/playlist", OutputDir := "", Cover := "",
    AudioFormat := "mp3", YtDLPPath := "", FFmpegPath := "",
    Metadata := { emptyMetadata with Title := "Caller Title" },
    PlaylistMetadata := some
      { AlbumInfo := emptyAlbumMetadata,
        Tracks := [{ emptyTrackMetadata with Position := 1 }] } }

/-- A config with only an album-level artist (so tagging is enabled) and
no playlist metadata. -/
def cfgPlainArtist : Config :=
  { URL := "https://example.com/playlist", OutputDir := "", Cover := "",
    AudioFormat := "mp3", YtDLPPath := "", FFmpegPath := "",
    Metadata := { emptyMetadata with Artist := "Tester" },
    PlaylistMetadata := none }

/-- Like `cfgPlainArtist` but with a locally configured cover path. -/
def cfgLocalCover : Config :=
  { cfgPlainArtist with Cover := "covers/missing.jpg" }

/-- A config with no metadata at all: every `Metadata` field empty, no
cover, no playlist metadata. -/
def cfgBare : Config :=
  { URL := "https://example.com/one", OutputDir := "", Cover := "",
    AudioFormat := "mp3", YtDLPPath := "", FFmpegPath := "",
    Metadata := emptyMetadata, PlaylistMetadata := none }

/-- A tagger oracle that fails exactly on `b.mp3`. -/
def tagFailSecond : String → String → Metadata → Option String :=
  fun f _ _ => if f = "b.mp3" then some "boom" else none

/-- A tagger oracle that always succeeds. -/
def tagOK : String → String → Metadata → Option String :=
  fun _ _ _ => none

/-- A stat oracle for a filesystem with no files. -/
def statNone : String → Bool := fun _ => false

/-- An `isURL` oracle that classifies every value as a non-URL. -/
def isURLNone : String → Bool := fun _ => false

/-- An HTTP oracle that fails every fetch. -/
def fetchNone : String → Option String := fun _ => none

/-! ## Claim theorems: the Metadata Merge Engine -/

/-- Field lemma: the merged `Track` string. -/
theorem merge_Track_eq (album : AlbumMetadata) (track : TrackMetadata)
    (position : Int) :
    (MergeTrackMetadata album track position).Track =
      (let n := if track.Position > 0 then track.Position else position
       if album.TotalTracks > 0 then
         toString n ++ "/" ++ toString album.TotalTracks
       else if n > 0 then toString n else "") := by
  simp only [MergeTrackMetadata, formatTrackNumber, apply_ite Metadata.Track,
    ite_self]
  try (split_ifs <;> first | rfl | simp_all)

/-- Field lemma: the merged `Artist`. -/
theorem merge_Artist_eq (album : AlbumMetadata) (track : TrackMetadata)
    (position : Int) :
    (MergeTrackMetadata album track position).Artist =
      (if track.Artist ≠ "" then track.Artist else album.Artist) := by
  simp only [MergeTrackMetadata, apply_ite Metadata.Artist, ite_self]

/-- Field lemma: the merged `AlbumArtist`. -/
theorem merge_AlbumArtist_eq (album : AlbumMetadata) (track : TrackMetadata)
    (position : Int) :
    (MergeTrackMetadata album track position).AlbumArtist =
      (if album.AlbumArtist ≠ "" then album.AlbumArtist else album.Artist) := by
  simp only [MergeTrackMetadata, apply_ite Metadata.AlbumArtist, ite_self]
  split_ifs <;> first | rfl | simp_all

/-- Field lemma: the merged `Title`. -/
theorem merge_Title_eq (album : AlbumMetadata) (track : TrackMetadata)
    (position : Int) :
    (MergeTrackMetadata album track position).Title =
      (if track.Title ≠ "" then track.Title else "") := by
  simp only [MergeTrackMetadata, apply_ite Metadata.Title, ite_self]

/-- Claim C4 (confirmed): `MergeTrackMetadata` computes the track-number
string from `n = track.Position if positive else fallbackPosition`: when
`album.TotalTracks > 0` it is `"n/total"`, else `"n"` when `n > 0`, else
the field is left unset; in particular the three concrete instances of
the claim hold. -/
theorem c4_trackNumber :
    (∀ (album : AlbumMetadata) (track : TrackMetadata) (position : Int),
      (MergeTrackMetadata album track position).Track =
        (let n := if track.Position > 0 then track.Position else position
         if album.TotalTracks > 0 then
           toString n ++ "/" ++ toString album.TotalTracks
         else if n > 0 then toString n else "")) ∧
    (MergeTrackMetadata { emptyAlbumMetadata with TotalTracks := 10 }
      { emptyTrackMetadata with Position := 3 } 3).Track = "3/10" ∧
    (MergeTrackMetadata emptyAlbumMetadata
      { emptyTrackMetadata with Position := 5 } 5).Track = "5" ∧
    (MergeTrackMetadata { emptyAlbumMetadata with TotalTracks := 12 }
      emptyTrackMetadata 1).Track = "1/12" := by
  exact ⟨merge_Track_eq, by decide, by decide, by decide⟩

/-- Claim C5 (confirmed): the merged artist is the track artist when
non-empty and the album artist otherwise, and the merged album-artist is
the album's `AlbumArtist` when non-empty, falling back to the album
artist. -/
theorem c5_artistResolution :
    ∀ (album : AlbumMetadata) (track : TrackMetadata) (position : Int),
      (MergeTrackMetadata album track position).Artist =
        (if track.Artist ≠ "" then track.Artist else album.Artist) ∧
      (MergeTrackMetadata album track position).AlbumArtist =
        (if album.AlbumArtist ≠ "" then album.AlbumArtist else album.Artist) := by
  intro album track position
  exact ⟨merge_Artist_eq album track position,
    merge_AlbumArtist_eq album track position⟩

/-- Claim C6, counterexample: with playlist metadata present whose
resolved track has an empty title, the metadata passed to the tagger has
an empty title, not the caller-configured `Metadata.Title`. -/
theorem c6_counterexample :
    (selectFileMetadata cfgCallerTitle "1 - a.mp3" 0).Title = "" ∧
    cfgCallerTitle.Metadata.Title = "Caller Title" ∧
    ("" : String) ≠ "Caller Title" := by
  decide

/-- Claim C6 as amended: the merged title equals `track.Title` when that
is non-empty and is empty otherwise — `MergeTrackMetadata` builds a fresh
record, so when playlist metadata is present the caller-configured
`Metadata.Title` is not consulted; without playlist metadata the
caller-supplied metadata is used unchanged. -/
theorem c6_amended :
    (∀ (album : AlbumMetadata) (track : TrackMetadata) (position : Int),
      (MergeTrackMetadata album track position).Title =
        (if track.Title ≠ "" then track.Title else "")) ∧
    (∀ (cfg : Config) (file : String) (i : Nat),
      (selectFileMetadata cfg file i).Title =
        (match cfg.PlaylistMetadata with
         | some pm =>
           let t := resolvedTrack pm file i
           if t.Title ≠ "" then t.Title else ""
         | none => cfg.Metadata.Title)) := by
  refine ⟨merge_Title_eq, ?_⟩
  intro cfg file i
  match h : cfg.PlaylistMetadata with
  | some pm => simp only [selectFileMetadata, h, getTrackMetadata, merge_Title_eq]
  | none => simp only [selectFileMetadata, h]

/-! ## Claim theorems: track resolution in the orchestrator -/

/-- Claim C1, counterexample: on the filename `"-3 - song.mp3"` the
extractor yields the negative value `-3`; the code then falls back to
`i+1 = 1` (its guard is `trackIndex <= 0`), while the claim's rule (fall
back only when extraction yields zero) keeps `-3`, producing a different
merged record (track-number string `"1"` versus unset). -/
theorem c1_counterexample :
    extractPlaylistIndexS "-3 - song.mp3" = -3 ∧
    getTrackMetadata pmOneEmptyTrack "-3 - song.mp3" 0 ≠
      claimC1TrackMetadata pmOneEmptyTrack "-3 - song.mp3" 0 ∧
    (getTrackMetadata pmOneEmptyTrack "-3 - song.mp3" 0).Track = "1" ∧
    (claimC1TrackMetadata pmOneEmptyTrack "-3 - song.mp3" 0).Track = "" := by
  decide

/-- Claim C1 as amended: the orchestrator falls back to `i+1` when
extraction yields zero **or a negative value** (the code guard is
`trackIndex <= 0`); the selection and merge are otherwise exactly as
claimed, and the two-file playlist scenario maps each file to its
metadata entry by filename index, independently of the iteration index. -/
theorem c1_amended :
    (∀ (pm : PlaylistMetadata) (filename : String) (i : Nat),
      getTrackMetadata pm filename i =
        (let e := extractPlaylistIndexS filename
         let trackIndex : Int := if e ≤ 0 then (i : Int) + 1 else e
         let t : TrackMetadata :=
           if 1 ≤ trackIndex ∧ trackIndex ≤ (pm.Tracks.length : Int) then
             pm.Tracks.getD (trackIndex - 1).toNat emptyTrackMetadata
           else if (i : Int) < (pm.Tracks.length : Int) then
             pm.Tracks.getD i emptyTrackMetadata
           else emptyTrackMetadata
         MergeTrackMetadata pm.AlbumInfo t trackIndex)) ∧
    (getTrackMetadata pmTwoTracks "1 - track1.mp3" 0).Title = "First Track" ∧
    (getTrackMetadata pmTwoTracks "2 - track2.mp3" 0).Title = "Second Track" ∧
    (getTrackMetadata pmTwoTracks "1 - track1.mp3" 1).Title = "First Track" := by
  refine ⟨?_, by decide, by decide, by decide⟩
  intro pm filename i
  simp only [getTrackMetadata, resolvedTrack, resolvedTrackIndex]
  split_ifs <;> first | rfl | omega

/-! ## Claim theorems: the directory diff -/

/-- `lexLe` is total. -/
theorem lexLe_total : ∀ a b : List Char, lexLe a b = true ∨ lexLe b a = true
  | [], _ => Or.inl rfl
  | _ :: _, [] => Or.inr rfl
  | a :: as, b :: bs => by
    rcases lt_trichotomy a b with h | h | h
    · exact Or.inl (by simp [lexLe, h])
    · subst h
      rcases lexLe_total as bs with h | h
      · exact Or.inl (by simp [lexLe, h])
      · exact Or.inr (by simp [lexLe, h])
    · exact Or.inr (by simp [lexLe, h])

/-- `lexLe` is transitive. -/
theorem lexLe_trans : ∀ a b c : List Char,
    lexLe a b = true → lexLe b c = true → lexLe a c = true
  | [], _, _, _, _ => rfl
  | _ :: _, [], _, hab, _ => by simp [lexLe] at hab
  | _ :: _, _ :: _, [], _, hbc => by simp [lexLe] at hbc
  | a :: as, b :: bs, c :: cs, hab, hbc => by
    rcases lt_trichotomy a b with h1 | h1 | h1
    · rcases lt_trichotomy b c with h2 | h2 | h2
      · simp [lexLe, lt_trans h1 h2]
      · subst h2; simp [lexLe, h1]
      · simp [lexLe, lt_asymm h2, h2.ne'] at hbc
    · subst h1
      rcases lt_trichotomy a c with h2 | h2 | h2
      · simp [lexLe, h2]
      · subst h2
        have ha : lexLe as bs = true := by simpa [lexLe, lt_irrefl] using hab
        have hb : lexLe bs cs = true := by simpa [lexLe, lt_irrefl] using hbc
        simp [lexLe, lt_irrefl, lexLe_trans as bs cs ha hb]
      · simp [lexLe, lt_asymm h2, h2.ne'] at hbc
    · simp [lexLe, lt_asymm h1, h1.ne'] at hab

/-- `lexLe` is antisymmetric. -/
theorem lexLe_antisymm : ∀ a b : List Char,
    lexLe a b = true → lexLe b a = true → a = b
  | [], [], _, _ => rfl
  | [], _ :: _, _, hba => by simp [lexLe] at hba
  | _ :: _, [], hab, _ => by simp [lexLe] at hab
  | a :: as, b :: bs, hab, hba => by
    rcases lt_trichotomy a b with h | h | h
    · simp [lexLe, lt_asymm h, h.ne'] at hba
    · subst h
      have h1 : lexLe as bs = true := by simpa [lexLe, lt_irrefl] using hab
      have h2 : lexLe bs as = true := by simpa [lexLe, lt_irrefl] using hba
      rw [lexLe_antisymm as bs h1 h2]
    · simp [lexLe, lt_asymm h, h.ne'] at hab

/-- Claim C2 (confirmed): for every pair of snapshot key sets,
`diffFiles` returns exactly `after \ before` — membership is equivalent
to being in `after` and not in `before` — as a lexicographically sorted
sequence without duplicates, and it is empty whenever `after` is a
subset of `before`.  (`after.Nodup` is the map-key invariant of the
`after` snapshot.) -/
theorem c2_diff (before after : List String) (hnodup : after.Nodup) :
    (∀ x : String, (x ∈ diffFiles before after) ↔ (x ∈ after ∧ x ∉ before)) ∧
    List.Sorted strLeR (diffFiles before after) ∧
    (diffFiles before after).Nodup ∧
    ((∀ x ∈ after, x ∈ before) → diffFiles before after = []) := by
  have hperm : List.Perm (diffFiles before after)
      (after.filter (fun p => !(before.contains p))) :=
    List.perm_insertionSort strLeR _
  refine ⟨?_, ?_, ?_, ?_⟩
  · intro x
    rw [hperm.mem_iff, List.mem_filter]
    simp
  · exact @List.sorted_insertionSort String strLeR _
      ⟨fun a b => lexLe_total a.data b.data⟩
      ⟨fun a b c => lexLe_trans a.data b.data c.data⟩ _
  · exact hperm.nodup_iff.mpr (hnodup.filter _)
  · intro hsub
    have hfil : after.filter (fun p => !(before.contains p)) = [] := by
      rw [List.filter_eq_nil_iff]
      intro a ha
      simpa using hsub a ha
    simp only [diffFiles, hfil]
    rfl

/-- Witness for C2 at a concrete input: when `after` only repeats the
lone pre-existing file, the diff is empty. -/
theorem c2_diff_witness : diffFiles ["a.mp3"] ["a.mp3"] = [] :=
  (c2_diff ["a.mp3"] ["a.mp3"] (by decide)).2.2.2 (by decide)

/-! ## Claim theorems: the Track Index Extractor -/

/-- A decimal digit is not scanner whitespace. -/
theorem digit_not_goSpace (c : Char) (h : c.isDigit = true) :
    isGoSpace c = false := by
  by_contra hne
  have ht : isGoSpace c = true := by revert hne; cases isGoSpace c <;> simp
  simp only [isGoSpace, Bool.or_eq_true, decide_eq_true_eq] at ht
  rcases ht with ((((((h1 | h1) | h1) | h1) | h1) | h1) | h1) | h1 <;>
    subst h1 <;> exact absurd h (by decide)

/-- A decimal digit is not the space character. -/
theorem digit_ne_space (c : Char) (h : c.isDigit = true) : c ≠ ' ' := by
  intro hc
  subst hc
  exact absurd h (by decide)

/-- A decimal digit is neither sign character. -/
theorem digit_not_sign (c : Char) (h : c.isDigit = true) :
    ¬(c = '-' ∨ c = '+') := by
  rintro (hc | hc) <;> subst hc <;> exact absurd h (by decide)

/-- `takeWhile` keeps a list all of whose elements satisfy the test. -/
theorem takeWhile_of_all {p : Char → Bool} :
    ∀ l : List Char, (∀ c ∈ l, p c = true) → l.takeWhile p = l
  | [], _ => rfl
  | c :: cs, h => by
    have hc : p c = true := h c (by simp)
    simp [List.takeWhile_cons, hc,
      takeWhile_of_all cs (fun d hd => h d (by simp [hd]))]

/-- `Sscanf "%d"` on a non-empty all-digit string within the `int64`
range returns its decimal value. -/
theorem sscanfInt_digits (ds : List Char) (hne : ds ≠ [])
    (hdig : ∀ c ∈ ds, c.isDigit = true) (hlt : digitsToNat ds < 2 ^ 63) :
    sscanfInt ds = some ((digitsToNat ds : Int)) := by
  obtain ⟨d, tl, rfl⟩ := List.exists_cons_of_ne_nil hne
  have hd : d.isDigit = true := hdig d (by simp)
  have hds : (d :: tl).dropWhile isGoSpace = d :: tl := by
    rw [List.dropWhile_cons]
    simp [digit_not_goSpace d hd]
  have hsign : ¬(d = '-' ∨ d = '+') := digit_not_sign d hd
  have hdash : ¬ d = '-' := fun hc => hsign (Or.inl hc)
  have hplus : ¬ d = '+' := fun hc => hsign (Or.inr hc)
  simp only [sscanfInt, hds]
  simp [hdash, hplus, takeWhile_of_all _ hdig, hlt]
  exact hlt

/-- When `isSepTail` holds, the list starts with `'-'` then `' '`. -/
theorem isSepTail_inv (rs : List Char) (h : isSepTail rs = true) :
    ∃ b, rs = '-' :: ' ' :: b := by
  cases rs with
  | nil => simp [isSepTail] at h
  | cons a t =>
    cases t with
    | nil => simp [isSepTail] at h
    | cons b u =>
      simp only [isSepTail, Bool.and_eq_true, decide_eq_true_eq] at h
      obtain ⟨rfl, rfl⟩ := h
      exact ⟨u, rfl⟩

/-- Walking the scanner over a space-free block `xs` up to the first
separator parses `pre ++ xs`. -/
theorem scanSep_reaches : ∀ (xs pre rest : List Char),
    (∀ c ∈ xs, c ≠ ' ') → pre ++ xs ≠ [] →
    scanSep pre (xs ++ ' ' :: '-' :: ' ' :: rest) =
      (match sscanfInt (pre ++ xs) with | some n => n | none => 0)
  | [], pre, rest, _, hne => by
    have hpre : pre ≠ [] := by simpa using hne
    simp [scanSep, isSepTail, hpre]
  | c :: xs, pre, rest, hns, hne => by
    have hc : c ≠ ' ' := hns c (by simp)
    have hstep : scanSep pre ((c :: xs) ++ ' ' :: '-' :: ' ' :: rest) =
        scanSep (pre ++ [c]) (xs ++ ' ' :: '-' :: ' ' :: rest) := by
      simp [scanSep, hc]
    rw [hstep, scanSep_reaches xs (pre ++ [c]) rest
      (fun d hd => hns d (by simp [hd])) (by simp)]
    simp

/-- The scanner returns 0 when no separator occurrence exists in the
remaining input (with a non-empty accumulated block). -/
theorem scanSep_none : ∀ (rest pre : List Char), pre ≠ [] →
    (∀ a b : List Char, rest ≠ a ++ ' ' :: '-' :: ' ' :: b) →
    scanSep pre rest = 0
  | [], _, _, _ => rfl
  | c :: rs, pre, hpre, hno => by
    by_cases hg : c = ' ' ∧ pre ≠ [] ∧ isSepTail rs = true
    · exfalso
      obtain ⟨hc, _, hsep⟩ := hg
      obtain ⟨b, rfl⟩ := isSepTail_inv rs hsep
      subst hc
      exact hno [] b rfl
    · simp only [scanSep]
      rw [if_neg hg]
      exact scanSep_none rs (pre ++ [c]) (by simp)
        (fun a b hab => hno (c :: a) b (by rw [hab]; rfl))

/-- The extractor scan returns 0 when the base name has no separator
occurrence at positive offset. -/
theorem scanSep_start_none (base : List Char)
    (hno : ∀ a b : List Char, a ≠ [] → base ≠ a ++ ' ' :: '-' :: ' ' :: b) :
    scanSep [] base = 0 := by
  match base with
  | [] => rfl
  | c :: rs =>
    have hg : ¬(c = ' ' ∧ ([] : List Char) ≠ [] ∧ isSepTail rs = true) := by
      rintro ⟨_, h2, _⟩
      exact h2 rfl
    simp only [scanSep]
    rw [if_neg hg]
    exact scanSep_none rs [c] (by simp)
      (fun a b hab => hno (c :: a) b (by simp) (by rw [hab]; rfl))

/-- Claim C3, counterexample: the base name
`"9223372036854775808 - x.mp3"` matches `"<N> - <title>.<ext>"` with `N`
composed only of digits and value `2 ^ 63`, yet the extractor returns 0,
not `N`, because `Sscanf`'s 64-bit parse overflows into an error. -/
theorem c3_counterexample :
    extractPlaylistIndexS "9223372036854775808 - x.mp3" = 0 ∧
    (∀ c ∈ ("9223372036854775808" : String).data, c.isDigit = true) ∧
    digitsToNat ("9223372036854775808" : String).data = 9223372036854775808 ∧
    ((9223372036854775808 : Int) ≠ 0) := by
  refine ⟨by decide, by decide, by decide, by decide⟩

/-- Claim C3 as amended: for a base name `"<N> - <title>.<ext>"` with `N`
non-empty and all digits, the extractor returns exactly `N` **provided
`N < 2^63`** (larger values overflow `Sscanf`'s 64-bit parse, which
yields 0); a base name with no `" - "` occurrence at positive offset
yields 0; and the first qualifying occurrence wins, so
`"12 - 3 - Song.mp3"` resolves to 12. -/
theorem c3_amended :
    (∀ (fname N rest : List Char),
      basename fname = N ++ ' ' :: '-' :: ' ' :: rest →
      N ≠ [] → (∀ c ∈ N, c.isDigit = true) → digitsToNat N < 2 ^ 63 →
      extractPlaylistIndex fname = (digitsToNat N : Int)) ∧
    (∀ fname : List Char,
      (∀ a b : List Char, a ≠ [] → basename fname ≠ a ++ ' ' :: '-' :: ' ' :: b) →
      extractPlaylistIndex fname = 0) ∧
    extractPlaylistIndexS "12 - 3 - Song.mp3" = 12 := by
  refine ⟨?_, ?_, by decide⟩
  · intro fname N rest hbase hne hdig hlt
    rw [extractPlaylistIndex, hbase]
    rw [scanSep_reaches N [] rest (fun c hc => digit_ne_space c (hdig c hc))
      (by simpa using hne)]
    simp [sscanfInt_digits N hne hdig hlt]
  · intro fname hno
    rw [extractPlaylistIndex]
    exact scanSep_start_none (basename fname) hno

/-- Witness for C3 at a concrete input: `"01 - a.mp3"` parses to 1
(leading zeros accepted). -/
theorem c3_amended_witness : extractPlaylistIndexS "01 - a.mp3" = 1 := by
  have h := c3_amended.1 ("01 - a.mp3" : String).data ['0', '1']
    ("a.mp3" : String).data (by decide) (by decide) (by decide) (by decide)
  rw [extractPlaylistIndexS, h]
  decide

/-! ## Claim theorems: the Download orchestrator -/

/-- Membership in the diff: in `after` and not in `before`. -/
theorem mem_diffFiles (before after : List String) (x : String) :
    x ∈ diffFiles before after ↔ (x ∈ after ∧ x ∉ before) := by
  simp only [diffFiles]
  rw [(List.perm_insertionSort strLeR _).mem_iff, List.mem_filter]
  simp

/-- The tagging loop stops at the first failing file: it returns that
file's error, and the invocations are the accumulator plus the
successful block plus the failing file. -/
theorem tagEach_fail (tag : String → String → Metadata → Option String)
    (cover : String) (cfg : Config) :
    ∀ (done : List String) (fk : String) (rest : List String) (i : Nat)
      (acc : List (String × Metadata)) (e : String),
      (∀ f ∈ done, ∀ c m, tag f c m = none) →
      (∀ c m, tag fk c m = some e) →
      (tagEach tag cover cfg (done ++ fk :: rest) i acc).2 = some e ∧
      (tagEach tag cover cfg (done ++ fk :: rest) i acc).1.map Prod.fst =
        acc.map Prod.fst ++ (done ++ [fk])
  | [], fk, rest, i, acc, e, _, hfk => by
    simp [tagEach, hfk]
  | d :: ds, fk, rest, i, acc, e, hdone, hfk => by
    have hd : ∀ c m, tag d c m = none := hdone d (by simp)
    have ih := tagEach_fail tag cover cfg ds fk rest (i + 1)
      (acc ++ [(d, selectFileMetadata cfg d i)]) e
      (fun f hf => hdone f (by simp [hf])) hfk
    simp only [List.cons_append, tagEach, hd, List.append_eq]
    refine ⟨ih.1, ?_⟩
    rw [ih.2]
    simp

/-- The tagging loop over all-successful files returns no error and
invokes the tagger once per file, in order. -/
theorem tagEach_ok (tag : String → String → Metadata → Option String)
    (cover : String) (cfg : Config) :
    ∀ (files : List String) (i : Nat) (acc : List (String × Metadata)),
      (∀ f ∈ files, ∀ c m, tag f c m = none) →
      (tagEach tag cover cfg files i acc).2 = none ∧
      (tagEach tag cover cfg files i acc).1.map Prod.fst =
        acc.map Prod.fst ++ files
  | [], _, acc, _ => by simp [tagEach]
  | f :: fs, i, acc, hok => by
    have hf : ∀ c m, tag f c m = none := hok f (by simp)
    have ih := tagEach_ok tag cover cfg fs (i + 1)
      (acc ++ [(f, selectFileMetadata cfg f i)])
      (fun g hg => hok g (by simp [hg]))
    simp only [tagEach, hf, List.append_eq]
    refine ⟨ih.1, ?_⟩
    rw [ih.2]
    simp

/-- Every file the tagging loop touches comes from the accumulator or
the file list. -/
theorem tagEach_fst_sub (tag : String → String → Metadata → Option String)
    (cover : String) (cfg : Config) :
    ∀ (files : List String) (i : Nat) (acc : List (String × Metadata))
      (x : String),
      x ∈ (tagEach tag cover cfg files i acc).1.map Prod.fst →
      x ∈ acc.map Prod.fst ∨ x ∈ files
  | [], _, acc, x, h => by
    simp only [tagEach] at h
    exact Or.inl h
  | f :: fs, i, acc, x, h => by
    simp only [tagEach] at h
    cases htag : tag f cover (selectFileMetadata cfg f i) with
    | some e =>
      rw [htag] at h
      simp only [List.map_append, List.mem_append] at h
      rcases h with h | h
      · exact Or.inl h
      · simp only [List.map_cons, List.map_nil, List.mem_singleton] at h
        subst h
        exact Or.inr (by simp)
    | none =>
      rw [htag] at h
      rcases tagEach_fst_sub tag cover cfg fs (i + 1)
        (acc ++ [(f, selectFileMetadata cfg f i)]) x h with h1 | h1
      · simp only [List.map_append, List.mem_append] at h1
        rcases h1 with h1 | h1
        · exact Or.inl h1
        · simp only [List.map_cons, List.map_nil, List.mem_singleton] at h1
          subst h1
          exact Or.inr (by simp)
      · exact Or.inr (by simp [h1])

/-- Claim C9 (confirmed): a path present in the before-download snapshot
is never passed to the tagger — only diffed paths are tagged, so
pre-existing files are untouched by the tagging phase on every branch of
`Download`. -/
theorem c9_preexisting_untouched
    (tag : String → String → Metadata → Option String)
    (statE isU : String → Bool) (httpF : String → Option String)
    (ytErr : Option String) (before after : List String) (cfg : Config)
    (p : String) (hp : p ∈ before) :
    p ∉ (Download tag statE isU httpF ytErr before after cfg).tagCalls.map
      Prod.fst := by
  intro hmem
  by_cases h1 : trimSpace cfg.URL = ""
  · simp [Download, h1] at hmem
  · cases ytErr with
    | some e => simp [Download, h1] at hmem
    | none =>
      by_cases h2 : diffFiles before after = []
      · simp [Download, h1, h2] at hmem
      · by_cases h3 : hasMetadataFlag cfg
          (resolveCoverPath statE isU httpF (coverSource cfg)) = true
        · simp only [Download, h1, h2, h3, if_false, if_true, ite_true,
            ite_false] at hmem
          rw [List.mem_map] at hmem
          obtain ⟨q, hq, rfl⟩ := hmem
          have hmem2 : q.1 ∈ (tagEach tag
              (resolveCoverPath statE isU httpF (coverSource cfg)) cfg
              (diffFiles before after) 0 []).1.map Prod.fst :=
            List.mem_map_of_mem Prod.fst hq
          rcases tagEach_fst_sub tag _ cfg (diffFiles before after) 0 [] q.1
            hmem2 with h | h
          · simp at h
          · rw [mem_diffFiles] at h
            exact h.2 hp
        · simp [Download, h1, h2, h3] at hmem

/-- Witness for C9 at a concrete input: the pre-existing `old.mp3` is
not among the tagger invocations of a run that downloads `new.mp3`. -/
theorem c9_witness :
    "old.mp3" ∉ (Download tagOK statNone isURLNone fetchNone none
      ["old.mp3"] ["old.mp3", "new.mp3"] cfgPlainArtist).tagCalls.map
      Prod.fst :=
  c9_preexisting_untouched tagOK statNone isURLNone fetchNone none
    ["old.mp3"] ["old.mp3", "new.mp3"] cfgPlainArtist "old.mp3" (by decide)

/-- Claim C10 (confirmed): with every caller-supplied metadata field
empty, an empty resolved cover path, and no playlist metadata, the
tagging step is skipped entirely — no tagger invocation is made and the
diffed files are returned unmodified with no error. -/
theorem c10_skip_tagging
    (tag : String → String → Metadata → Option String)
    (statE isU : String → Bool) (httpF : String → Option String)
    (before after : List String) (cfg : Config)
    (hmeta : cfg.Metadata = emptyMetadata)
    (hpm : cfg.PlaylistMetadata = none)
    (hcover : resolveCoverPath statE isU httpF (coverSource cfg) = "")
    (hurl : trimSpace cfg.URL ≠ "") (hne : diffFiles before after ≠ []) :
    Download tag statE isU httpF none before after cfg =
      ⟨diffFiles before after, none, [], ""⟩ := by
  have hflag : hasMetadataFlag cfg "" = false := by
    simp [hasMetadataFlag, hmeta, emptyMetadata, hpm]
  simp [Download, hurl, hne, hcover, hflag]

/-- Witness for C10 at a concrete input: a bare config returns the
single new file untouched, with no tagger call. -/
theorem c10_witness :
    Download tagOK statNone isURLNone fetchNone none [] ["x.mp3"] cfgBare =
      ⟨["x.mp3"], none, [], ""⟩ := by
  have h := c10_skip_tagging tagOK statNone isURLNone fetchNone []
    ["x.mp3"] cfgBare rfl rfl (by decide) (by decide) (by decide)
  rw [h]
  decide

/-- Claim C7, counterexample: with three new files and a tagger failing
on the second, `Download` returns the error together with the **full**
sorted list of new files, not the claimed list of the single
successfully processed file. -/
theorem c7_counterexample :
    (Download tagFailSecond statNone isURLNone fetchNone none []
      ["b.mp3", "a.mp3", "c.mp3"] cfgPlainArtist).files =
        ["a.mp3", "b.mp3", "c.mp3"] ∧
    (Download tagFailSecond statNone isURLNone fetchNone none []
      ["b.mp3", "a.mp3", "c.mp3"] cfgPlainArtist).error = some "boom" ∧
    (Download tagFailSecond statNone isURLNone fetchNone none []
      ["b.mp3", "a.mp3", "c.mp3"] cfgPlainArtist).tagCalls.map Prod.fst =
        ["a.mp3", "b.mp3"] ∧
    ["a.mp3", "b.mp3", "c.mp3"] ≠ ["a.mp3"] := by
  refine ⟨by decide, by decide, by decide, by decide⟩

/-- Claim C7 as amended: when the tagger fails on the k-th file of the
diffed set (1-based; `done` are the k-1 earlier files), `Download`
aborts the remaining files — the tagger is invoked exactly on the first
k files — and returns the tagger's error together with the **full**
sorted list of new files; the failed file is identified in console
output, not in the returned value. -/
theorem c7_amended
    (tag : String → String → Metadata → Option String)
    (statE isU : String → Bool) (httpF : String → Option String)
    (before after : List String) (cfg : Config)
    (done : List String) (fk : String) (rest : List String) (e : String)
    (hurl : trimSpace cfg.URL ≠ "")
    (hdiff : diffFiles before after = done ++ fk :: rest)
    (hflag : hasMetadataFlag cfg
      (resolveCoverPath statE isU httpF (coverSource cfg)) = true)
    (hdone : ∀ f ∈ done, ∀ c m, tag f c m = none)
    (hfk : ∀ c m, tag fk c m = some e) :
    (Download tag statE isU httpF none before after cfg).files =
      done ++ fk :: rest ∧
    (Download tag statE isU httpF none before after cfg).error = some e ∧
    (Download tag statE isU httpF none before after cfg).tagCalls.map
      Prod.fst = done ++ [fk] := by
  have hne : diffFiles before after ≠ [] := by simp [hdiff]
  have h2 := tagEach_fail tag
    (resolveCoverPath statE isU httpF (coverSource cfg)) cfg done fk rest 0
    [] e hdone hfk
  refine ⟨?_, ?_, ?_⟩ <;>
    simp [Download, hurl, hne, hdiff, hflag, h2.1, h2.2]

/-- Witness for C7 at a concrete input, via the amended theorem. -/
theorem c7_amended_witness :
    (Download tagFailSecond statNone isURLNone fetchNone none []
      ["b.mp3", "a.mp3", "c.mp3"] cfgPlainArtist).error = some "boom" ∧
    (Download tagFailSecond statNone isURLNone fetchNone none []
      ["b.mp3", "a.mp3", "c.mp3"] cfgPlainArtist).files =
        ["a.mp3", "b.mp3", "c.mp3"] := by
  have h := c7_amended tagFailSecond statNone isURLNone fetchNone []
    ["b.mp3", "a.mp3", "c.mp3"] cfgPlainArtist ["a.mp3"] "b.mp3" ["c.mp3"]
    "boom" (by decide) (by decide) (by decide)
    (fun f hf c m => by
      have : f = "a.mp3" := by simpa using hf
      subst this
      rfl)
    (fun c m => rfl)
  exact ⟨h.2.1, h.1⟩

/-- Claim C8, counterexample: the resolved cover source
`"covers/missing.jpg"` is a non-empty local (non-URL) path that does not
exist, yet the download request succeeds — `prepareCover` errors, but
`Download` only logs a warning and returns the new file with no error. -/
theorem c8_counterexample :
    coverSource cfgLocalCover = "covers/missing.jpg" ∧
    prepareCover statNone isURLNone fetchNone "covers/missing.jpg" =
      .error ("cover file: covers/missing.jpg") ∧
    (Download tagOK statNone isURLNone fetchNone none [] ["a.mp3"]
      cfgLocalCover).error = none ∧
    (Download tagOK statNone isURLNone fetchNone none [] ["a.mp3"]
      cfgLocalCover).files = ["a.mp3"] := by
  refine ⟨by decide, rfl, by decide, by decide⟩

/-- Claim C8 as amended: for a non-empty non-URL cover path that does
not exist, `prepareCover` returns an error, but `Download` treats cover
resolution as non-fatal: it proceeds with an empty cover path and, when
tagging succeeds, completes the request without error. -/
theorem c8_amended
    (statE isU : String → Bool) (httpF : String → Option String)
    (cover : String) (tag : String → String → Metadata → Option String)
    (before after : List String) (cfg : Config)
    (hc : trimSpace cover ≠ "") (hu : isU cover = false)
    (he : statE cover = false)
    (hurl : trimSpace cfg.URL ≠ "") (hcov : coverSource cfg = cover)
    (hne : diffFiles before after ≠ [])
    (htag : ∀ f c m, tag f c m = none) :
    prepareCover statE isU httpF cover = .error ("cover file: " ++ cover) ∧
    resolveCoverPath statE isU httpF (coverSource cfg) = "" ∧
    (Download tag statE isU httpF none before after cfg).error = none ∧
    (Download tag statE isU httpF none before after cfg).files =
      diffFiles before after := by
  have hprep : prepareCover statE isU httpF cover =
      .error ("cover file: " ++ cover) := by
    simp [prepareCover, hc, hu, he]
  have hres : resolveCoverPath statE isU httpF (coverSource cfg) = "" := by
    rw [hcov, resolveCoverPath, hprep]
  refine ⟨hprep, hres, ?_, ?_⟩ <;>
  · by_cases hflag : hasMetadataFlag cfg "" = true
    · have h2 := tagEach_ok tag "" cfg (diffFiles before after) 0 []
        (fun f _ c m => htag f c m)
      simp [Download, hurl, hne, hres, hflag, h2.1]
    · simp [Download, hurl, hne, hres, hflag]

/-- Witness for C8 at a concrete input, via the amended theorem. -/
theorem c8_amended_witness :
    prepareCover statNone isURLNone fetchNone "covers/missing.jpg" =
      .error ("cover file: covers/missing.jpg") ∧
    resolveCoverPath statNone isURLNone fetchNone
      (coverSource cfgLocalCover) = "" ∧
    (Download tagOK statNone isURLNone fetchNone none [] ["a.mp3"]
      cfgLocalCover).error = none ∧
    (Download tagOK statNone isURLNone fetchNone none [] ["a.mp3"]
      cfgLocalCover).files = diffFiles [] ["a.mp3"] :=
  c8_amended statNone isURLNone fetchNone "covers/missing.jpg" tagOK []
    ["a.mp3"] cfgLocalCover (by decide) rfl rfl (by decide) (by decide)
    (by decide) (fun f c m => rfl)

end ITurtle
